import Mathlib

/-!
Verification development for a retrieval-augmented generation backend.
The definitions below are shallow embeddings of the corresponding Python
functions: `withKeyRotation` embeds `GeminiClient._with_key_rotation`,
the tiered search functions embed `MongoDBVectorStore.similarity_search`
and its fallbacks, `listFilesPaginated` embeds
`ZillizVectorStore.list_files_paginated`, the session functions embed
`ChatService` and the `/chat/new-session` route, and `zillizAddDocuments`
embeds `ZillizVectorStore.add_documents`.  Remote calls and database
outcomes are passed in as explicit oracles / state.
-/

/-- Python `str.lower()` on a string (per-character lowering). -/
def pyLower (s : String) : String := String.mk (s.data.map Char.toLower)

/-- Substring test on character lists: does `needle` occur contiguously? -/
def hasSubstrAux (needle : List Char) : List Char → Bool
  | [] => needle.isEmpty
  | c :: rest => needle.isPrefixOf (c :: rest) || hasSubstrAux needle rest

/-- Python `needle in hay` on strings. -/
def pyInStr (needle hay : String) : Bool := hasSubstrAux needle.data hay.data

/-- A Python exception value: its class name and its message (`str(e)`). -/
structure PyError where
  cls : String
  msg : String
deriving DecidableEq

/-- The token list from `_with_key_rotation` used to classify an error
message as quota / rate-limit / permission / invalid-key. -/
def rotationTokens : List String :=
  ["quota", "rate", "exceed", "permission", "api key invalid", "api key not valid", "429"]

/-- `any(token in message for token in [...])` with `message = str(e).lower()`. -/
def isRotatableError (e : PyError) : Bool :=
  rotationTokens.any (fun t => pyInStr t (pyLower e.msg))

/-- The credential-pool state of `GeminiClient`: the ordered key list and
the active key index (`_api_keys`, `_key_index`). -/
structure GeminiClient where
  apiKeys : List String
  keyIndex : Nat
deriving DecidableEq

/-- `GeminiClient._rotate_key`: circular advance of the active index. -/
def rotateKey (c : GeminiClient) : GeminiClient :=
  { c with keyIndex := (c.keyIndex + 1) % c.apiKeys.length }

/-- Result of `_with_key_rotation` as observed by the caller. -/
inductive RotOutcome (V : Type) where
  | success (v : V)
  | raised (e : PyError)
  | assertFailed
deriving DecidableEq

/-- Full result of a `_with_key_rotation` run: outcome, final client
state, and how many remote calls were made. -/
structure RotResult (V : Type) where
  outcome : RotOutcome V
  client : GeminiClient
  callsMade : Nat
deriving DecidableEq

/-- The `while attempts < limit` loop of `_with_key_rotation`.  `calls i`
is the outcome of the `i`-th remote invocation of `func`; `fuel` is
`limit - attempts`; `callIdx` counts calls already made; `lastError`
mirrors the `last_error` local.  On a rotatable error the key rotates and
an attempt is consumed; on any other error the exception propagates at
once; leaving the loop re-raises `last_error` (the bare `assert
last_error is not None` corresponds to `assertFailed`). -/
def withKeyRotationGo {V : Type} (calls : Nat → Except PyError V) :
    Nat → Nat → GeminiClient → Option PyError → RotResult V
  | 0, callIdx, c, lastError =>
    match lastError with
    | some e => ⟨.raised e, c, callIdx⟩
    | none => ⟨.assertFailed, c, callIdx⟩
  | fuel + 1, callIdx, c, _ =>
    match calls callIdx with
    | .ok v => ⟨.success v, c, callIdx + 1⟩
    | .error e =>
      if isRotatableError e then
        withKeyRotationGo calls fuel (callIdx + 1) (rotateKey c) (some e)
      else
        ⟨.raised e, c, callIdx + 1⟩

/-- `GeminiClient._with_key_rotation`.  `limit = max_attempts or
len(self._api_keys)` (Python `or`: `0`/`None` fall back to the pool
size). -/
def withKeyRotation {V : Type} (calls : Nat → Except PyError V)
    (c : GeminiClient) (maxAttempts : Option Nat) : RotResult V :=
  let limit := match maxAttempts with
    | some n => if n = 0 then c.apiKeys.length else n
    | none => c.apiKeys.length
  withKeyRotationGo calls limit 0 c none

/-- `n`-fold application of `rotateKey`. -/
def iterRotate : Nat → GeminiClient → GeminiClient
  | 0, c => c
  | n + 1, c => iterRotate n (rotateKey c)

/-! ### Search results and the MongoDB tiered fallback search -/

/-- The common search-result shape `{page_content, metadata, distance,
filename, file_id}` returned by every search operation. -/
structure SearchResult where
  pageContent : String
  metadata : String
  distance : ℚ
  filename : String
  fileId : String
deriving DecidableEq

/-- A raw document as it comes back from a MongoDB cursor: stored fields
plus the server-side relevance `score` (vector or text score). -/
structure RawDoc where
  content : String
  metadata : String
  score : ℚ
  filename : String
  fileId : String
deriving DecidableEq

/-- Outcome of one search tier: either the tier raised an exception or
it returned a (possibly empty) list of documents. -/
inductive TierOutcome (α : Type) where
  | raises (e : PyError)
  | returns (docs : List α)
deriving DecidableEq

/-- Tier-1 formatting in `similarity_search`: `distance = 1 - score`. -/
def vectorDocToResult (d : RawDoc) : SearchResult :=
  ⟨d.content, d.metadata, 1 - d.score, d.filename, d.fileId⟩

/-- Tier-2 formatting in `_fallback_text_search`:
`distance = 1 - score / 10`. -/
def textDocToResult (d : RawDoc) : SearchResult :=
  ⟨d.content, d.metadata, 1 - d.score / 10, d.filename, d.fileId⟩

/-- Tier-3 formatting in `_fallback_text_search`: every regex hit gets
the fixed neutral `distance = 0.5`. -/
def regexDocToResult (d : RawDoc) : SearchResult :=
  ⟨d.content, d.metadata, 1 / 2, d.filename, d.fileId⟩

/-- `MongoDBVectorStore._fallback_text_search`: try full-text search; if
it raises or returns no rows, fall through to the case-insensitive regex
query; a failure of the whole block is caught and yields `[]`. -/
def fallbackTextSearch (t2 t3 : TierOutcome RawDoc) : List SearchResult :=
  match t2 with
  | .returns (d :: ds) => (d :: ds).map textDocToResult
  | .returns [] =>
    match t3 with
    | .returns ds => ds.map regexDocToResult
    | .raises _ => []
  | .raises _ =>
    match t3 with
    | .returns ds => ds.map regexDocToResult
    | .raises _ => []

/-- `MongoDBVectorStore.similarity_search`: tier-1 native vector search;
on an exception or an empty result set, delegate to
`_fallback_text_search`.  Every exception is handled, so the function
always returns `.ok`. -/
def mongoSimilaritySearch (t1 t2 t3 : TierOutcome RawDoc) :
    Except PyError (List SearchResult) :=
  match t1 with
  | .returns (d :: ds) => .ok ((d :: ds).map vectorDocToResult)
  | .returns [] => .ok (fallbackTextSearch t2 t3)
  | .raises _ => .ok (fallbackTextSearch t2 t3)

/-- A raw hit from a Zilliz (Milvus) COSINE vector search. -/
structure ZHit where
  content : String
  metadata : String
  score : ℚ
  filename : String
  fileId : String
deriving DecidableEq

/-- `ZillizVectorStore.similarity_search` result formatting:
`distance = 1 - hit.score`. -/
def zillizHitToResult (h : ZHit) : SearchResult :=
  ⟨h.content, h.metadata, 1 - h.score, h.filename, h.fileId⟩

/-- `ZillizVectorStore.similarity_search`: maps hits, returns `[]` on
any exception. -/
def zillizSimilaritySearch (hits : TierOutcome ZHit) : List SearchResult :=
  match hits with
  | .returns hs => hs.map zillizHitToResult
  | .raises _ => []

/-! ### MongoDB chunk store state, deletion and insertion -/

/-- A stored document chunk (content, embedding and the metadata fields
that `add_documents` copies to the top level of the record). -/
structure Chunk where
  content : String
  embedding : List ℚ
  fileId : String
  filename : String
  source : String
deriving DecidableEq

/-- Top-level field lookup on a chunk record, for filter matching. -/
def Chunk.fieldVal (c : Chunk) : String → Option String
  | "file_id" => some c.fileId
  | "filename" => some c.filename
  | "source" => some c.source
  | _ => none

/-- Does a chunk match every `key = value` pair of a delete filter? -/
def matchesFilter (filt : List (String × String)) (c : Chunk) : Bool :=
  filt.all (fun kv => c.fieldVal kv.1 == some kv.2)

/-- `MongoDBVectorStore.delete_by_metadata`: `delete_many` removes every
matching record and reports the deleted count. -/
def deleteByMetadata (filt : List (String × String)) (st : List Chunk) :
    List Chunk × Nat :=
  (st.filter (fun c => ! matchesFilter filt c),
   (st.filter (fun c => matchesFilter filt c)).length)

/-- `Orchestrator.delete_file`: delegates to delete-by-filter on the
single pair `{file_id: fileId}`. -/
def orchestratorDeleteFile (fileId : String) (st : List Chunk) :
    List Chunk × Nat :=
  deleteByMetadata [("file_id", fileId)] st

/-- `MongoDBVectorStore.add_documents`: appends one record per
document/embedding pair; never removes existing records. -/
def mongoAddDocuments (docs : List (String × List ℚ))
    (fileId filename source : String) (st : List Chunk) : List Chunk :=
  st ++ docs.map (fun de => ⟨de.1, de.2, fileId, filename, source⟩)

/-! ### A stable sort, as Python `list.sort(key=..., reverse=...)` -/

/-- Insert `a` before the first element it is strictly below; equal keys
keep their original relative order (stability). -/
def stableInsert {α : Type} (lt : α → α → Bool) (a : α) : List α → List α
  | [] => [a]
  | b :: l => if lt a b then a :: b :: l else b :: stableInsert lt a l

/-- Stable insertion sort; on a strict comparison it computes the same
list as any stable sort, in particular CPython `list.sort`. -/
def stableSort {α : Type} (lt : α → α → Bool) : List α → List α
  | [] => []
  | a :: l => stableInsert lt a (stableSort lt l)

/-- Strict key comparison; `rev` reverses it (Python `reverse=True`). -/
def keyLt {α β : Type} [LinearOrder β] (k : α → β) (rev : Bool) (a b : α) : Bool :=
  if rev then decide (k b < k a) else decide (k a < k b)

/-- The ordering relation a `keyLt`-sorted list satisfies. -/
def keyOrd {α β : Type} [LinearOrder β] (k : α → β) (rev : Bool) (a b : α) : Prop :=
  if rev then k b ≤ k a else k a ≤ k b

/-- Python `list.sort(key=k, reverse=rev)`. -/
def pySortByKey {α β : Type} [LinearOrder β] (k : α → β) (rev : Bool)
    (l : List α) : List α :=
  stableSort (keyLt k rev) l

/-! ### Zilliz paginated file listing -/

/-- A `(file_id, filename, created_at)` row from the Zilliz query used
for file listing (`created_at` is stored as an ISO string). -/
structure FileRow where
  fileId : String
  filename : String
  createdAt : String
deriving DecidableEq

/-- The grouping loop of `list_files_paginated`: keep the first row per
`file_id`, skipping rows with a falsy (empty) `file_id`; insertion
order of a Python dict preserves first-occurrence order. -/
def dedupGo (seen : List String) : List FileRow → List FileRow
  | [] => []
  | r :: rest =>
    if r.fileId = "" then dedupGo seen rest
    else if seen.contains r.fileId then dedupGo seen rest
    else r :: dedupGo (r.fileId :: seen) rest

/-- Unique files, first occurrence per `file_id`. -/
def dedupByFileId (rows : List FileRow) : List FileRow := dedupGo [] rows

/-- `order_by` validation: anything outside the valid set falls back to
`created_at`. -/
def effectiveOrderBy (orderBy : String) : String :=
  if orderBy = "created_at" ∨ orderBy = "filename" ∨ orderBy = "file_id" then orderBy
  else "created_at"

/-- The sort key selected by `list_files_paginated` (filenames are
compared lowercased).  Keys are compared as their character lists,
which is exactly the order `<` on `String` (Python compares strings
lexicographically by code point). -/
def sortKey (orderBy : String) (r : FileRow) : List Char :=
  if effectiveOrderBy orderBy = "created_at" then r.createdAt.data
  else if effectiveOrderBy orderBy = "filename" then (pyLower r.filename).data
  else r.fileId.data

/-- `order_direction` validation and the `reverse_order` flag: an
invalid direction is replaced by `desc`, and `reverse` holds exactly
when the effective direction is `desc`. -/
def paginationReverse (dir : String) : Bool :=
  let d := if pyLower dir = "asc" ∨ pyLower dir = "desc" then dir else "desc"
  pyLower d = "desc"

/-- The dictionary returned by `list_files_paginated`. -/
structure PageResult where
  files : List FileRow
  totalCount : Nat
  page : Nat
  pageSize : Nat
  totalPages : Nat
deriving DecidableEq

/-- The full deterministically ordered listing: unique files sorted by
the selected key and direction (stable, as CPython `list.sort`). -/
def sortedFiles (rows : List FileRow) (orderBy dir : String) : List FileRow :=
  pySortByKey (sortKey orderBy) (paginationReverse dir) (dedupByFileId rows)

/-- `ZillizVectorStore.list_files_paginated` (success path): group,
sort, then slice `[(page-1)*page_size, page*page_size)` with
`total_pages = (total_count + page_size - 1) // page_size`. -/
def listFilesPaginated (rows : List FileRow) (page pageSize : Nat)
    (orderBy dir : String) : PageResult :=
  let fl := sortedFiles rows orderBy dir
  ⟨(fl.drop ((page - 1) * pageSize)).take pageSize,
   fl.length, page, pageSize,
   (fl.length + pageSize - 1) / pageSize⟩

/-! ### Chat sessions: creation, listing, messages -/

/-- TTL of a temporary session: `timedelta(hours=5)`, in seconds. -/
def tempSessionTTL : Nat := 5 * 3600

/-- TTL of a persistent session: `timedelta(days=15)`, in seconds. -/
def persistentSessionTTL : Nat := 15 * 86400

/-- The `ChatSessionCreate` request body (`title`, `is_temporary`;
`is_temporary` defaults to `False`). -/
structure SessionCreateData where
  title : Option String
  isTemporary : Bool
deriving DecidableEq

/-- The session record written by `ChatService.create_session`
(timestamps as seconds). -/
structure SessionRecord where
  sid : String
  userId : Option String
  title : Option String
  createdAt : Nat
  updatedAt : Nat
  messageCount : Nat
  totalTokens : Nat
  isActive : Bool
  isTemporary : Bool
  expiresAt : Option Nat
deriving DecidableEq

/-- `ChatService.create_session`: `is_temporary` is read from the
request body (default `False`); TTL is 5 hours for temporary sessions
and 15 days otherwise; `expires_at = now + TTL`. -/
def createSession (userId : Option String) (sessionData : Option SessionCreateData)
    (now : Nat) (sid : String) : SessionRecord :=
  let isTemp := match sessionData with
    | some d => d.isTemporary
    | none => false
  let expires := if isTemp then now + tempSessionTTL else now + persistentSessionTTL
  ⟨sid, userId, (match sessionData with | some d => d.title | none => none),
   now, now, 0, 0, true, isTemp, some expires⟩

/-- Outcome of validating the `Authorization` header in the
`/chat/new-session` route. -/
inductive JwtOutcome where
  | noCredentials
  | valid (sub : Option String)
  | expired
  | invalid
  | otherError (e : PyError)
deriving DecidableEq

/-- An `HTTPException` raised by a route. -/
structure HttpError where
  status : Nat
  detail : String
deriving DecidableEq

/-- Does the request carry a valid token identifying a principal? -/
def authenticatedPrincipal (auth : JwtOutcome) : Bool :=
  match auth with
  | .valid (some _) => true
  | _ => false

/-- The `/chat/new-session` route: default anonymous temp user; a valid
token with a `sub` claim switches to that user and a non-temporary
session; an expired token raises 401; an invalid token keeps the
anonymous defaults; a valid token missing `sub` raises `HTTPException`
inside the inner `try`, which the broad `except Exception` handler turns
into a 500 (as does any other decode error).  The chosen
`is_temporary` flag is forced into the request body before calling
`ChatService.create_session`. -/
def routeCreateSession (auth : JwtOutcome) (sessionData : Option SessionCreateData)
    (anonId : String) (now : Nat) (sid : String) :
    Except HttpError SessionRecord :=
  let anonUser := "temp_user_" ++ anonId
  let step : Except HttpError (String × Bool) :=
    match auth with
    | .noCredentials => .ok (anonUser, true)
    | .valid none => .error ⟨500, "Token verification error"⟩
    | .valid (some s) => .ok (s, false)
    | .expired => .error ⟨401, "Token expired"⟩
    | .invalid => .ok (anonUser, true)
    | .otherError _ => .error ⟨500, "Token verification error"⟩
  match step with
  | .error e => .error e
  | .ok (userId, isTemp) =>
    let sd := match sessionData with
      | some d => SessionCreateData.mk d.title isTemp
      | none => SessionCreateData.mk none isTemp
    .ok (createSession (some userId) (some sd) now sid)

/-- The filter of `ChatService.get_user_sessions`: same user, still
active, and `expires_at` in the future or unset. -/
def isListedActive (uid : String) (now : Nat) (s : SessionRecord) : Bool :=
  s.userId == some uid && s.isActive &&
    (match s.expiresAt with
     | some e => decide (now < e)
     | none => true)

/-- `ChatService.get_user_sessions`: filter, sort by `updated_at`
descending, then `skip(offset).limit(limit)`. -/
def getUserSessions (sessions : List SessionRecord) (uid : String)
    (limit offset now : Nat) : List SessionRecord :=
  (((pySortByKey (fun s => s.updatedAt) true
      (sessions.filter (isListedActive uid now))).drop offset).take limit)

/-! ### `ChatService.add_message` and MongoDB update semantics -/

/-- A BSON value as stored by MongoDB.  A `$set` update stores its
values literally, so a nested `{"$inc": 1}` document is stored as a
document, not interpreted as an update operator. -/
inductive Bson where
  | int (n : Int)
  | str (s : String)
  | bool (b : Bool)
  | null
  | doc (fields : List (String × Bson))

/-- A session document as a field map. -/
abbrev SessionFields := List (String × Bson)

/-- Set one field of a document to a literal value (replace the first
occurrence or append). -/
def setField : SessionFields → String → Bson → SessionFields
  | [], k, v => [(k, v)]
  | (k0, v0) :: rest, k, v =>
    if k0 = k then (k, v) :: rest else (k0, v0) :: setField rest k v

/-- MongoDB `$set`: apply every pair of the update document literally. -/
def applySet (updates : List (String × Bson)) (d : SessionFields) : SessionFields :=
  updates.foldl (fun d kv => setField d kv.1 kv.2) d

/-- First-occurrence field lookup. -/
def getField : SessionFields → String → Option Bson
  | [], _ => none
  | (k0, v0) :: rest, k => if k0 = k then some v0 else getField rest k

/-- `update_one({_id: sid}, ...)`: update the first matching document. -/
def updateFirst : List (String × SessionFields) → String →
    (SessionFields → SessionFields) → List (String × SessionFields)
  | [], _, _ => []
  | (k, d) :: rest, sid, f =>
    if k = sid then (k, f d) :: rest else (k, d) :: updateFirst rest sid f

/-- A chat-message record as inserted by `add_message`. -/
structure MessageRecord where
  mid : String
  sessionId : String
  role : String
  content : String
  messageType : String
  createdAt : Nat
  tokensUsed : Option Int
  responseTimeMs : Option Int
deriving DecidableEq

/-- `ChatService.add_message` (structured-body branch): insert exactly
one message record, then issue
`update_one({_id}, {"$set": {"message_count": {"$inc": 1},
"updated_at": now[, "total_tokens": {"$inc": tokens_used}]}})` —
the `$inc` documents sit INSIDE `$set`, so they are stored as literal
documents.  `tokens_used` participates only when truthy (non-`None`,
non-zero). -/
def addMessage (sessions : List (String × SessionFields))
    (messages : List MessageRecord) (sessionId : String)
    (role content messageType : String) (tokensUsed : Option Int)
    (responseTimeMs : Option Int) (now : Nat) (mid : String) :
    List (String × SessionFields) × List MessageRecord :=
  let msg : MessageRecord :=
    ⟨mid, sessionId, role, content, messageType, now, tokensUsed, responseTimeMs⟩
  let base : List (String × Bson) :=
    [("message_count", Bson.doc [("$inc", Bson.int 1)]),
     ("updated_at", Bson.int now)]
  let updates := match tokensUsed with
    | some t => if t ≠ 0 then base ++ [("total_tokens", Bson.doc [("$inc", Bson.int t)])] else base
    | none => base
  (updateFirst sessions sessionId (applySet updates), messages ++ [msg])

/-! ### `ZillizVectorStore.add_documents` and the missing `ZoneInfo` -/

/-- The names bound at module scope in `zilliz_vectorstore.py` (its
imports and module-level definitions); `ZoneInfo` is not among them. -/
def zillizModuleNames : List String :=
  ["os", "logging", "asyncio", "List", "Dict", "Any", "Optional",
   "connections", "Collection", "CollectionSchema", "FieldSchema",
   "DataType", "utility", "np", "datetime", "uuid",
   "Config", "GeminiClient", "logger", "ZillizVectorStore"]

/-- Evaluating the name `ZoneInfo` in `add_documents`: a `NameError`
unless the module binds it. -/
def resolveZoneInfo : Except PyError Unit :=
  if zillizModuleNames.contains "ZoneInfo" then .ok ()
  else .error ⟨"NameError", "name ZoneInfo is not defined"⟩

/-- A row prepared for Zilliz insertion. -/
structure ZRow where
  content : String
  embedding : List ℚ
  fileId : String
  filename : String
deriving DecidableEq

/-- The per-document preparation loop of `add_documents`: each iteration
evaluates `datetime.now(ZoneInfo("Asia/Yangon"))` to build
`created_at`. -/
def buildZillizRows (fileId filename : String) :
    List (String × List ℚ) → Except PyError (List ZRow)
  | [] => .ok []
  | (d, e) :: rest =>
    match resolveZoneInfo with
    | .error err => .error err
    | .ok _ =>
      match buildZillizRows fileId filename rest with
      | .error err => .error err
      | .ok rows => .ok (⟨d, e, fileId, filename⟩ :: rows)

/-- `ZillizVectorStore.add_documents`: empty input returns at once;
otherwise embeddings are fetched, the rows are prepared (the loop runs
before `collection.insert`), and only then would the insert extend the
collection.  The returned pair is (call outcome, collection state). -/
def zillizAddDocuments (embed : Except PyError (List (List ℚ)))
    (docs : List String) (fileId filename : String) (st : List ZRow) :
    Except PyError Unit × List ZRow :=
  if docs.isEmpty then (.ok (), st)
  else
    match embed with
    | .error e => (.error e, st)
    | .ok embs =>
      match buildZillizRows fileId filename (docs.zip embs) with
      | .error e => (.error e, st)
      | .ok rows => (.ok (), st ++ rows)

/-- `Config.VECTOR_STORE_TYPE` defaults to `zilliz`. -/
def vectorStoreTypeDefault : String := "zilliz"

/-! ## Lemmas: key rotation -/

theorem withKeyRotationGo_callsMade_le {V : Type} (calls : Nat → Except PyError V) :
    ∀ (fuel callIdx : Nat) (c : GeminiClient) (le : Option PyError),
      (withKeyRotationGo calls fuel callIdx c le).callsMade ≤ callIdx + fuel := by
  intro fuel
  induction fuel with
  | zero =>
    intro callIdx c le
    cases le <;> simp [withKeyRotationGo]
  | succ n ih =>
    intro callIdx c le
    simp only [withKeyRotationGo]
    split
    · simp
    · split
      · exact le_trans (ih (callIdx + 1) (rotateKey c) _) (by omega)
      · simp

theorem iterRotate_apiKeys :
    ∀ (n : Nat) (c : GeminiClient), (iterRotate n c).apiKeys = c.apiKeys := by
  intro n
  induction n with
  | zero => intro c; rfl
  | succ m ih => intro c; exact ih (rotateKey c)

theorem iterRotate_keyIndex :
    ∀ (n : Nat) (c : GeminiClient), c.keyIndex < c.apiKeys.length →
      (iterRotate n c).keyIndex = (c.keyIndex + n) % c.apiKeys.length := by
  intro n
  induction n with
  | zero =>
    intro c hc
    simp [iterRotate, Nat.mod_eq_of_lt hc]
  | succ m ih =>
    intro c hc
    have hpos : 0 < c.apiKeys.length := lt_of_le_of_lt (Nat.zero_le _) hc
    have hlt : (rotateKey c).keyIndex < (rotateKey c).apiKeys.length := by
      simp only [rotateKey]
      exact Nat.mod_lt _ hpos
    have h := ih (rotateKey c) hlt
    show (iterRotate m (rotateKey c)).keyIndex = _
    rw [h]
    simp only [rotateKey]
    rw [Nat.mod_add_mod]
    have : c.keyIndex + 1 + m = c.keyIndex + (m + 1) := by omega
    rw [this]

theorem withKeyRotationGo_success {V : Type} (calls : Nat → Except PyError V) (v : V) :
    ∀ (f fuel callIdx : Nat) (c : GeminiClient) (le : Option PyError),
      f < fuel →
      (∀ i, i < f → ∃ e, calls (callIdx + i) = .error e ∧ isRotatableError e = true) →
      calls (callIdx + f) = .ok v →
      withKeyRotationGo calls fuel callIdx c le =
        ⟨.success v, iterRotate f c, callIdx + f + 1⟩ := by
  intro f
  induction f with
  | zero =>
    intro fuel callIdx c le hf _ hok
    obtain ⟨n, rfl⟩ : ∃ n, fuel = n + 1 := ⟨fuel - 1, by omega⟩
    rw [Nat.add_zero] at hok
    simp [withKeyRotationGo, hok, iterRotate]
  | succ m ih =>
    intro fuel callIdx c le hf hpre hok
    obtain ⟨n, rfl⟩ : ∃ n, fuel = n + 1 := ⟨fuel - 1, by omega⟩
    obtain ⟨e, he, hr⟩ := hpre 0 (by omega)
    rw [Nat.add_zero] at he
    have hrec := ih n (callIdx + 1) (rotateKey c) (some e) (by omega)
      (fun i hi => by
        obtain ⟨e0, he0, hr0⟩ := hpre (i + 1) (by omega)
        refine ⟨e0, ?_, hr0⟩
        rw [show callIdx + 1 + i = callIdx + (i + 1) by omega]
        exact he0)
      (by rw [show callIdx + 1 + m = callIdx + (m + 1) by omega]; exact hok)
    simp only [withKeyRotationGo, he, hr, if_true]
    rw [hrec]
    have : callIdx + 1 + m + 1 = callIdx + (m + 1) + 1 := by omega
    rw [this]
    rfl

theorem withKeyRotationGo_nonrotatable {V : Type} (calls : Nat → Except PyError V)
    (e : PyError) :
    ∀ (f fuel callIdx : Nat) (c : GeminiClient) (le : Option PyError),
      f < fuel →
      (∀ i, i < f → ∃ e0, calls (callIdx + i) = .error e0 ∧ isRotatableError e0 = true) →
      calls (callIdx + f) = .error e → isRotatableError e = false →
      withKeyRotationGo calls fuel callIdx c le =
        ⟨.raised e, iterRotate f c, callIdx + f + 1⟩ := by
  intro f
  induction f with
  | zero =>
    intro fuel callIdx c le hf _ herr hnr
    obtain ⟨n, rfl⟩ : ∃ n, fuel = n + 1 := ⟨fuel - 1, by omega⟩
    rw [Nat.add_zero] at herr
    simp [withKeyRotationGo, herr, hnr, iterRotate]
  | succ m ih =>
    intro fuel callIdx c le hf hpre herr hnr
    obtain ⟨n, rfl⟩ : ∃ n, fuel = n + 1 := ⟨fuel - 1, by omega⟩
    obtain ⟨e1, he1, hr1⟩ := hpre 0 (by omega)
    rw [Nat.add_zero] at he1
    have hrec := ih n (callIdx + 1) (rotateKey c) (some e1) (by omega)
      (fun i hi => by
        obtain ⟨e0, he0, hr0⟩ := hpre (i + 1) (by omega)
        refine ⟨e0, ?_, hr0⟩
        rw [show callIdx + 1 + i = callIdx + (i + 1) by omega]
        exact he0)
      (by rw [show callIdx + 1 + m = callIdx + (m + 1) by omega]; exact herr) hnr
    simp only [withKeyRotationGo, he1, hr1, if_true]
    rw [hrec]
    have : callIdx + 1 + m + 1 = callIdx + (m + 1) + 1 := by omega
    rw [this]
    rfl

theorem withKeyRotationGo_exhaust {V : Type} (calls : Nat → Except PyError V) :
    ∀ (fuel callIdx : Nat) (c : GeminiClient) (le : Option PyError),
      0 < fuel →
      (∀ i, i < fuel → ∃ e, calls (callIdx + i) = .error e ∧ isRotatableError e = true) →
      ∃ e, calls (callIdx + (fuel - 1)) = .error e ∧
        withKeyRotationGo calls fuel callIdx c le =
          ⟨.raised e, iterRotate fuel c, callIdx + fuel⟩ := by
  intro fuel
  induction fuel with
  | zero => intro callIdx c le h; omega
  | succ n ih =>
    intro callIdx c le _ hall
    obtain ⟨e, he, hr⟩ := hall 0 (by omega)
    rw [Nat.add_zero] at he
    rcases Nat.eq_zero_or_pos n with h0 | hpos
    · subst h0
      refine ⟨e, by simpa using he, ?_⟩
      simp [withKeyRotationGo, he, hr, iterRotate]
    · obtain ⟨e1, he1, heq⟩ := ih (callIdx + 1) (rotateKey c) (some e) hpos
        (fun i hi => by
          obtain ⟨e0, he0, hr0⟩ := hall (i + 1) (by omega)
          refine ⟨e0, ?_, hr0⟩
          rw [show callIdx + 1 + i = callIdx + (i + 1) by omega]
          exact he0)
      refine ⟨e1, ?_, ?_⟩
      · rw [show callIdx + (n + 1 - 1) = callIdx + 1 + (n - 1) by omega]
        exact he1
      · simp only [withKeyRotationGo, he, hr, if_true]
        rw [heq]
        have : callIdx + 1 + n = callIdx + (n + 1) := by omega
        rw [this]
        rfl

/-! ## Claim C1 -/

/-- C1: for every non-empty credential pool of size N, `_with_key_rotation`
makes at most N call attempts in total; each rotatable failure advances
the active key index circularly (`index = (index + 1) mod N`); and if a
call succeeds after `f < N` rotatable failures, the successful result is
returned, with final active index `f mod N` and exactly `f + 1` calls
made. -/
theorem withKeyRotation_success_contract {V : Type} (calls : Nat → Except PyError V)
    (keys : List String) (hN : 0 < keys.length) :
    (withKeyRotation calls ⟨keys, 0⟩ none).callsMade ≤ keys.length ∧
    (∀ c : GeminiClient, c.apiKeys = keys →
      (rotateKey c).keyIndex = (c.keyIndex + 1) % keys.length) ∧
    (∀ (f : Nat) (v : V), f < keys.length →
      (∀ i, i < f → ∃ e, calls i = .error e ∧ isRotatableError e = true) →
      calls f = .ok v →
      (withKeyRotation calls ⟨keys, 0⟩ none).outcome = .success v ∧
      (withKeyRotation calls ⟨keys, 0⟩ none).client.keyIndex = f % keys.length ∧
      (withKeyRotation calls ⟨keys, 0⟩ none).callsMade = f + 1) := by
  refine ⟨?_, ?_, ?_⟩
  · have h := withKeyRotationGo_callsMade_le calls keys.length 0 ⟨keys, 0⟩ none
    simpa [withKeyRotation] using h
  · intro c hc
    simp [rotateKey, hc]
  · intro f v hf hpre hok
    have h := withKeyRotationGo_success calls v f keys.length 0 ⟨keys, 0⟩ none hf
      (fun i hi => by simpa using hpre i hi) (by simpa using hok)
    have hshow : withKeyRotation calls ⟨keys, 0⟩ none =
        withKeyRotationGo calls keys.length 0 ⟨keys, 0⟩ none := rfl
    rw [hshow, h]
    refine ⟨rfl, ?_, by simp⟩
    have hidx := iterRotate_keyIndex f ⟨keys, 0⟩ (by simpa using hN)
    simpa using hidx

/-- C1 witness: pool `[k1, k2]`, quota failure on the first key, success
on the second: the result is returned, the active index is 1 and two
calls were made. -/
theorem withKeyRotation_success_contract_witness :
    (0 : Nat) < (["k1", "k2"] : List String).length ∧
    (withKeyRotation
      (fun i => if i = 0 then .error ⟨"ResourceExhausted", "429 quota exceeded"⟩
                else .ok "answer")
      ⟨["k1", "k2"], 0⟩ none).outcome = .success "answer" ∧
    (withKeyRotation
      (fun i => if i = 0 then .error ⟨"ResourceExhausted", "429 quota exceeded"⟩
                else .ok "answer")
      ⟨["k1", "k2"], 0⟩ none).client.keyIndex = 1 ∧
    (withKeyRotation
      (fun i => if i = 0 then .error ⟨"ResourceExhausted", "429 quota exceeded"⟩
                else .ok "answer")
      ⟨["k1", "k2"], 0⟩ none).callsMade = 2 := by
  have h := withKeyRotation_success_contract
    (fun i => if i = 0 then .error ⟨"ResourceExhausted", "429 quota exceeded"⟩
              else .ok "answer")
    ["k1", "k2"] (by decide)
  obtain ⟨-, -, h3⟩ := h
  have h4 := h3 1 "answer" (by decide)
    (fun i hi => by
      have hi0 : i = 0 := by omega
      subst hi0
      exact ⟨⟨"ResourceExhausted", "429 quota exceeded"⟩, rfl, by decide⟩)
    rfl
  exact ⟨by decide, h4.1, h4.2.1, h4.2.2⟩

/-! ## Claim C2 -/

/-- C2 counterexample: a pool of one key whose only call fails with a
quota-pattern `ResourceExhausted` error.  All attempts are exhausted with
rotatable errors, and what is raised is that original error itself — its
class is `ResourceExhausted`, not a distinct `ProviderExhaustedError`
(no such class exists in the code). -/
theorem withKeyRotation_exhaustion_raises_original_error :
    (withKeyRotation (V := Unit)
      (fun _ => .error ⟨"ResourceExhausted", "429 quota exceeded"⟩)
      ⟨["k1"], 0⟩ none).outcome =
      .raised ⟨"ResourceExhausted", "429 quota exceeded"⟩ ∧
    "ResourceExhausted" ≠ "ProviderExhaustedError" := by
  exact ⟨by decide, by decide⟩

/-- C2 (amended): a non-rotatable error propagates immediately, without
rotating past it (the index still reflects only the preceding rotatable
failures) and without consuming a further attempt; when all `pool_size`
attempts fail with rotatable errors, the LAST ERROR ITSELF is re-raised
unchanged (the code defines no `ProviderExhaustedError` wrapper). -/
theorem withKeyRotation_failure_contract {V : Type} (calls : Nat → Except PyError V)
    (keys : List String) (hN : 0 < keys.length) :
    (∀ (f : Nat) (e : PyError), f < keys.length →
      (∀ i, i < f → ∃ e0, calls i = .error e0 ∧ isRotatableError e0 = true) →
      calls f = .error e → isRotatableError e = false →
      (withKeyRotation calls ⟨keys, 0⟩ none).outcome = .raised e ∧
      (withKeyRotation calls ⟨keys, 0⟩ none).client.keyIndex = f % keys.length ∧
      (withKeyRotation calls ⟨keys, 0⟩ none).callsMade = f + 1) ∧
    ((∀ i, i < keys.length → ∃ e, calls i = .error e ∧ isRotatableError e = true) →
      ∃ e, calls (keys.length - 1) = .error e ∧
        (withKeyRotation calls ⟨keys, 0⟩ none).outcome = .raised e ∧
        (withKeyRotation calls ⟨keys, 0⟩ none).callsMade = keys.length) := by
  have hshow : withKeyRotation calls ⟨keys, 0⟩ none =
      withKeyRotationGo calls keys.length 0 ⟨keys, 0⟩ none := rfl
  constructor
  · intro f e hf hpre herr hnr
    have h := withKeyRotationGo_nonrotatable calls e f keys.length 0 ⟨keys, 0⟩ none hf
      (fun i hi => by simpa using hpre i hi) (by simpa using herr) hnr
    rw [hshow, h]
    refine ⟨rfl, ?_, by simp⟩
    have hidx := iterRotate_keyIndex f ⟨keys, 0⟩ (by simpa using hN)
    simpa using hidx
  · intro hall
    obtain ⟨e, he, heq⟩ := withKeyRotationGo_exhaust calls keys.length 0 ⟨keys, 0⟩ none hN
      (fun i hi => by simpa using hall i hi)
    refine ⟨e, by simpa using he, ?_, ?_⟩
    · rw [hshow, heq]
    · rw [hshow, heq]
      simp

/-- C2 witness: pool `[k1, k2]`, both calls fail with the same
quota-pattern error; the run raises exactly that error after two calls. -/
theorem withKeyRotation_failure_contract_witness :
    (0 : Nat) < (["k1", "k2"] : List String).length ∧
    (withKeyRotation (V := Unit)
      (fun _ => .error ⟨"ResourceExhausted", "quota hit"⟩)
      ⟨["k1", "k2"], 0⟩ none).outcome = .raised ⟨"ResourceExhausted", "quota hit"⟩ ∧
    (withKeyRotation (V := Unit)
      (fun _ => .error ⟨"ResourceExhausted", "quota hit"⟩)
      ⟨["k1", "k2"], 0⟩ none).callsMade = 2 := by
  have h := (withKeyRotation_failure_contract (V := Unit)
    (fun _ => .error ⟨"ResourceExhausted", "quota hit"⟩) ["k1", "k2"] (by decide)).2
    (fun i hi => ⟨⟨"ResourceExhausted", "quota hit"⟩, rfl, by decide⟩)
  obtain ⟨e, he, ho, hc⟩ := h
  have he2 : (⟨"ResourceExhausted", "quota hit"⟩ : PyError) = e := by
    simpa using he
  subst he2
  exact ⟨by decide, ho, hc⟩

/-! ## Claim C3 -/

/-- C3: on the document-store backend, `similarity_search` returns the
tier-1 vector hits when there are any; when tier 1 raises or is empty it
returns the tier-2 text hits when there are any; when tier 2 also raises
or is empty it returns the tier-3 regex hits, each with the fixed
neutral distance 1/2; and when everything is empty (or tier 3 raises)
it returns the empty list — in every case the call returns `.ok`,
never an exception. -/
theorem mongoSimilaritySearch_tiered_fallback (t1 t2 t3 : TierOutcome RawDoc) :
    (∃ l, mongoSimilaritySearch t1 t2 t3 = .ok l) ∧
    (∀ d ds, t1 = .returns (d :: ds) →
      mongoSimilaritySearch t1 t2 t3 = .ok ((d :: ds).map vectorDocToResult)) ∧
    ((t1 = .returns [] ∨ ∃ e, t1 = .raises e) →
      (∀ d ds, t2 = .returns (d :: ds) →
        mongoSimilaritySearch t1 t2 t3 = .ok ((d :: ds).map textDocToResult)) ∧
      ((t2 = .returns [] ∨ ∃ e, t2 = .raises e) →
        (∀ ds, t3 = .returns ds →
          mongoSimilaritySearch t1 t2 t3 = .ok (ds.map regexDocToResult) ∧
          ∀ r ∈ ds.map regexDocToResult, r.distance = 1 / 2) ∧
        (∀ e, t3 = .raises e → mongoSimilaritySearch t1 t2 t3 = .ok []))) := by
  refine ⟨?_, ?_, ?_⟩
  · cases t1 with
    | raises e => exact ⟨_, rfl⟩
    | returns ds =>
      cases ds with
      | nil => exact ⟨_, rfl⟩
      | cons d ds => exact ⟨_, rfl⟩
  · intro d ds h
    subst h
    rfl
  · intro h1
    have hfb : mongoSimilaritySearch t1 t2 t3 = .ok (fallbackTextSearch t2 t3) := by
      rcases h1 with h | ⟨e, h⟩ <;> subst h <;> rfl
    refine ⟨?_, ?_⟩
    · intro d ds h2
      subst h2
      rw [hfb]
      rfl
    · intro h2
      refine ⟨?_, ?_⟩
      · intro ds h3
        subst h3
        refine ⟨?_, ?_⟩
        · rcases h2 with h | ⟨e, h⟩ <;> subst h <;> rw [hfb] <;> rfl
        · intro r hr
          rw [List.mem_map] at hr
          obtain ⟨d, -, hd⟩ := hr
          rw [← hd]
          rfl
      · intro e h3
        subst h3
        rcases h2 with h | ⟨e2, h⟩ <;> subst h <;> rw [hfb] <;> rfl

/-- C3 witness: tier 1 raises (no vector index), tier 2 returns no rows,
tier 3 returns one regex hit, which comes back with distance 1/2. -/
theorem mongoSimilaritySearch_tiered_fallback_witness :
    mongoSimilaritySearch (.raises ⟨"OperationFailure", "no vector index"⟩)
      (.returns []) (.returns [⟨"doc text", "m", 0, "file.txt", "f1"⟩]) =
      .ok [⟨"doc text", "m", 1 / 2, "file.txt", "f1"⟩] := by
  have h := (mongoSimilaritySearch_tiered_fallback
    (.raises ⟨"OperationFailure", "no vector index"⟩)
    (.returns []) (.returns [⟨"doc text", "m", 0, "file.txt", "f1"⟩])).2.2
    (Or.inr ⟨_, rfl⟩)
  exact (h.2 (Or.inl rfl)).1 [⟨"doc text", "m", 0, "file.txt", "f1"⟩] rfl |>.1

/-! ## Claim C4 -/

/-- C4 counterexample: the MongoDB text-search conversion
`1 - score / 10` has no clamp: on a text score of 20 (MongoDB text
scores are unbounded) the search returns a result with distance -1,
which lies outside [0, 1]. -/
theorem searchDistance_out_of_range :
    mongoSimilaritySearch (.raises ⟨"OperationFailure", "no vector index"⟩)
      (.returns [⟨"c", "m", 20, "f.txt", "f1"⟩]) (.returns []) =
      .ok [⟨"c", "m", -1, "f.txt", "f1"⟩] ∧
    ¬ ((0 : ℚ) ≤ -1) := by
  constructor
  · have hd : (1 : ℚ) - 20 / 10 = -1 := by norm_num
    show Except.ok [textDocToResult ⟨"c", "m", 20, "f.txt", "f1"⟩] = _
    rw [show textDocToResult ⟨"c", "m", 20, "f.txt", "f1"⟩ =
      ⟨"c", "m", 1 - 20 / 10, "f.txt", "f1"⟩ from rfl, hd]
  · decide

/-- C4 (amended): the distance conversions keep `distance` in [0, 1]
exactly when the native score lies in the range the conversion assumes —
text score in [0, 10] for `1 - score / 10`, vector/cosine score in
[0, 1] for `1 - score` — and every regex hit gets 1/2, which lies in
[0, 1]; there is no clamp, so out-of-range scores give out-of-range
distances. -/
theorem searchDistance_range_amended :
    (∀ d : RawDoc, 0 ≤ d.score → d.score ≤ 10 →
      0 ≤ (textDocToResult d).distance ∧ (textDocToResult d).distance ≤ 1) ∧
    (∀ d : RawDoc, 0 ≤ d.score → d.score ≤ 1 →
      0 ≤ (vectorDocToResult d).distance ∧ (vectorDocToResult d).distance ≤ 1) ∧
    (∀ h : ZHit, 0 ≤ h.score → h.score ≤ 1 →
      0 ≤ (zillizHitToResult h).distance ∧ (zillizHitToResult h).distance ≤ 1) ∧
    (∀ d : RawDoc, (regexDocToResult d).distance = 1 / 2 ∧
      0 ≤ (1 : ℚ) / 2 ∧ (1 : ℚ) / 2 ≤ 1) := by
  refine ⟨?_, ?_, ?_, ?_⟩
  · intro d h0 h10
    constructor
    · show (0 : ℚ) ≤ 1 - d.score / 10
      linarith
    · show (1 : ℚ) - d.score / 10 ≤ 1
      linarith
  · intro d h0 h1
    constructor
    · show (0 : ℚ) ≤ 1 - d.score
      linarith
    · show (1 : ℚ) - d.score ≤ 1
      linarith
  · intro h h0 h1
    constructor
    · show (0 : ℚ) ≤ 1 - h.score
      linarith
    · show (1 : ℚ) - h.score ≤ 1
      linarith
  · intro d
    exact ⟨rfl, by norm_num, by norm_num⟩

/-- C4 witness: a text hit with score 3 gets distance 7/10 inside
[0, 1], and a cosine hit with score 1 gets distance 0. -/
theorem searchDistance_range_amended_witness :
    ((0 : ℚ) ≤ 3 ∧ (3 : ℚ) ≤ 10 ∧
      0 ≤ (textDocToResult ⟨"c", "m", 3, "f", "id"⟩).distance ∧
      (textDocToResult ⟨"c", "m", 3, "f", "id"⟩).distance ≤ 1) ∧
    ((0 : ℚ) ≤ 1 ∧ (1 : ℚ) ≤ 1 ∧
      0 ≤ (zillizHitToResult ⟨"c", "m", 1, "f", "id"⟩).distance ∧
      (zillizHitToResult ⟨"c", "m", 1, "f", "id"⟩).distance ≤ 1) := by
  have h1 := searchDistance_range_amended.1 ⟨"c", "m", 3, "f", "id"⟩ (by decide) (by decide)
  have h2 := searchDistance_range_amended.2.2.1 ⟨"c", "m", 1, "f", "id"⟩
    (by decide) (by decide)
  exact ⟨⟨by decide, by decide, h1.1, h1.2⟩, ⟨by decide, by decide, h2.1, h2.2⟩⟩

/-! ## Lemmas: stable sort and pagination arithmetic -/

theorem stableInsert_perm {α : Type} (lt : α → α → Bool) (a : α) :
    ∀ l : List α, (stableInsert lt a l).Perm (a :: l) := by
  intro l
  induction l with
  | nil => simp [stableInsert]
  | cons b l ih =>
    simp only [stableInsert]
    split
    · exact List.Perm.refl _
    · exact List.Perm.trans (List.Perm.cons b ih) (List.Perm.swap a b l)

theorem stableSort_perm {α : Type} (lt : α → α → Bool) :
    ∀ l : List α, (stableSort lt l).Perm l := by
  intro l
  induction l with
  | nil => simp [stableSort]
  | cons a l ih =>
    exact List.Perm.trans (stableInsert_perm lt a _) (List.Perm.cons a ih)

theorem mem_stableInsert {α : Type} (lt : α → α → Bool) (a c : α) (l : List α) :
    c ∈ stableInsert lt a l → c = a ∨ c ∈ l := by
  intro hc
  have h := (stableInsert_perm lt a l).mem_iff.mp hc
  simpa using h

theorem stableInsert_pairwise {α : Type} (lt : α → α → Bool)
    (hasym : ∀ x y, lt x y = true → lt y x = false)
    (htrans : ∀ x y z, lt x y = false → lt y z = false → lt x z = false)
    (a : α) :
    ∀ l : List α, l.Pairwise (fun x y => lt y x = false) →
      (stableInsert lt a l).Pairwise (fun x y => lt y x = false) := by
  intro l
  induction l with
  | nil => intro _; simp [stableInsert]
  | cons b l ih =>
    intro hl
    rw [List.pairwise_cons] at hl
    obtain ⟨hb, hl2⟩ := hl
    simp only [stableInsert]
    split
    case isTrue h =>
      refine List.Pairwise.cons ?_ (List.Pairwise.cons hb hl2)
      intro c hc
      rcases List.mem_cons.mp hc with rfl | hc2
      · exact hasym a c h
      · exact htrans c b a (hb c hc2) (hasym a b h)
    case isFalse h =>
      refine List.Pairwise.cons ?_ (ih hl2)
      intro c hc
      rcases mem_stableInsert lt a c l hc with rfl | hc2
      · simpa using h
      · exact hb c hc2

theorem stableSort_pairwise {α : Type} (lt : α → α → Bool)
    (hasym : ∀ x y, lt x y = true → lt y x = false)
    (htrans : ∀ x y z, lt x y = false → lt y z = false → lt x z = false) :
    ∀ l : List α, (stableSort lt l).Pairwise (fun x y => lt y x = false) := by
  intro l
  induction l with
  | nil => simp [stableSort]
  | cons a l ih => exact stableInsert_pairwise lt hasym htrans a _ ih

theorem keyLt_asymm {α β : Type} [LinearOrder β] (k : α → β) (rev : Bool) :
    ∀ x y, keyLt k rev x y = true → keyLt k rev y x = false := by
  intro x y h
  cases rev <;> simp [keyLt] at h ⊢ <;> exact le_of_lt h

theorem keyLt_compl_trans {α β : Type} [LinearOrder β] (k : α → β) (rev : Bool) :
    ∀ x y z, keyLt k rev x y = false → keyLt k rev y z = false →
      keyLt k rev x z = false := by
  intro x y z h1 h2
  cases rev <;> simp [keyLt, not_lt] at h1 h2 ⊢
  · exact le_trans h2 h1
  · exact le_trans h1 h2

theorem pySortByKey_perm {α β : Type} [LinearOrder β] (k : α → β) (rev : Bool)
    (l : List α) : (pySortByKey k rev l).Perm l :=
  stableSort_perm _ l

theorem pySortByKey_pairwise {α β : Type} [LinearOrder β] (k : α → β) (rev : Bool)
    (l : List α) : (pySortByKey k rev l).Pairwise (keyOrd k rev) := by
  have h := stableSort_pairwise (keyLt k rev) (keyLt_asymm k rev)
    (keyLt_compl_trans k rev) l
  refine h.imp ?_
  intro a b hab
  cases rev <;> simp [keyLt, not_lt] at hab <;> simpa [keyOrd] using hab

theorem ceilDiv_mul_ge (t ps : Nat) (h : 0 < ps) : t ≤ ((t + ps - 1) / ps) * ps := by
  have hlt : (t + ps - 1) / ps < (t + ps - 1) / ps + 1 := Nat.lt_succ_self _
  have h2 : t + ps - 1 < ((t + ps - 1) / ps + 1) * ps :=
    (Nat.div_lt_iff_lt_mul h).mp hlt
  rw [Nat.succ_mul] at h2
  generalize hX : (t + ps - 1) / ps * ps = X at h2 ⊢
  omega

theorem ceilDiv_least (t ps m : Nat) (h : 0 < ps) (hm : t ≤ m * ps) :
    (t + ps - 1) / ps ≤ m := by
  rw [← Nat.lt_succ_iff]
  rw [Nat.div_lt_iff_lt_mul h]
  rw [Nat.succ_mul]
  generalize hX : m * ps = X at hm ⊢
  omega

theorem joinPages_eq {α : Type} (ps : Nat) (hps : 0 < ps) :
    ∀ (n : Nat) (l : List α), (l.length + ps - 1) / ps = n →
      ((List.range n).map (fun i => (l.drop (i * ps)).take ps)).flatten = l := by
  intro n
  induction n with
  | zero =>
    intro l hl
    have hlen : l.length = 0 := by
      by_contra h
      have h1 : 1 ≤ l.length := Nat.pos_of_ne_zero h
      have h2 : 1 * ps ≤ l.length + ps - 1 := by omega
      have h3 : 1 ≤ (l.length + ps - 1) / ps := (Nat.le_div_iff_mul_le hps).mpr h2
      omega
    simp [List.eq_nil_of_length_eq_zero hlen]
  | succ m ih =>
    intro l hl
    have hlen : 1 ≤ l.length := by
      by_contra h
      have h0 : l.length = 0 := by omega
      rw [h0] at hl
      have : (0 + ps - 1) / ps = 0 := Nat.div_eq_of_lt (by omega)
      omega
    rw [List.range_succ_eq_map, List.map_cons, List.map_map, List.flatten_cons]
    simp only [Nat.zero_mul, List.drop_zero]
    have hstep : ∀ i ∈ List.range m,
        ((fun i => (l.drop (i * ps)).take ps) ∘ (fun i => i + 1)) i =
          (((l.drop ps).drop (i * ps)).take ps) := by
      intro i _
      have : (i + 1) * ps = i * ps + ps := Nat.succ_mul i ps
      simp [Function.comp, List.drop_drop, this, Nat.add_comm]
    rw [List.map_congr_left hstep]
    have htail : (((List.range m).map
        (fun i => ((l.drop ps).drop (i * ps)).take ps)).flatten) = l.drop ps := by
      apply ih
      rw [List.length_drop]
      rcases le_or_lt l.length ps with hle | hgt
      · have h0 : l.length - ps = 0 := by omega
        rw [h0]
        have hz : (0 + ps - 1) / ps = 0 := Nat.div_eq_of_lt (by omega)
        have hlt2 : (l.length + ps - 1) / ps < 2 :=
          (Nat.div_lt_iff_lt_mul hps).mpr (by omega)
        omega
      · have harith : l.length - ps + ps - 1 + ps = l.length + ps - 1 := by omega
        have hdiv : (l.length - ps + ps - 1 + ps) / ps =
            (l.length - ps + ps - 1) / ps + 1 := Nat.add_div_right _ hps
        rw [harith] at hdiv
        omega
    rw [htail]
    exact List.take_append_drop ps l

/-! ## Claim C5 -/

/-- C5: for every `page_size >= 1` and every underlying row list,
`list_files_paginated` computes `total_pages` as the ceiling of
`total_count / page_size` (characterised as the least `m` with
`total_count <= m * page_size`), page `p >= 1` holds exactly the slice
`[(p-1)*page_size, p*page_size)` of the deterministically ordered
listing, the concatenation of pages `1..total_pages` reproduces that
ordered listing, which is a permutation of the unique-file list (each
item exactly once, no duplicates, no omissions) and is sorted by the
selected key and direction. -/
theorem listFilesPaginated_pagination_contract (rows : List FileRow)
    (page pageSize : Nat) (orderBy dir : String) (hps : 1 ≤ pageSize) :
    (listFilesPaginated rows page pageSize orderBy dir).totalCount ≤
      (listFilesPaginated rows page pageSize orderBy dir).totalPages * pageSize ∧
    (∀ m, (listFilesPaginated rows page pageSize orderBy dir).totalCount ≤ m * pageSize →
      (listFilesPaginated rows page pageSize orderBy dir).totalPages ≤ m) ∧
    (1 ≤ page → (listFilesPaginated rows page pageSize orderBy dir).files =
      ((sortedFiles rows orderBy dir).drop ((page - 1) * pageSize)).take pageSize) ∧
    ((List.range (listFilesPaginated rows page pageSize orderBy dir).totalPages).map
      (fun i => (listFilesPaginated rows (i + 1) pageSize orderBy dir).files)).flatten =
      sortedFiles rows orderBy dir ∧
    (sortedFiles rows orderBy dir).Perm (dedupByFileId rows) ∧
    (sortedFiles rows orderBy dir).Pairwise
      (keyOrd (sortKey orderBy) (paginationReverse dir)) := by
  have hpos : 0 < pageSize := hps
  refine ⟨?_, ?_, ?_, ?_, ?_, ?_⟩
  · exact ceilDiv_mul_ge (sortedFiles rows orderBy dir).length pageSize hpos
  · intro m hm
    exact ceilDiv_least (sortedFiles rows orderBy dir).length pageSize m hpos hm
  · intro _
    rfl
  · exact joinPages_eq pageSize hpos _ (sortedFiles rows orderBy dir) rfl
  · exact pySortByKey_perm _ _ _
  · exact pySortByKey_pairwise _ _ _

/-- C5 witness: two files sorted by filename ascending with page size 1;
page 1 is exactly the first element of the ordered listing. -/
theorem listFilesPaginated_pagination_contract_witness :
    (1 : Nat) ≤ 1 ∧
    (listFilesPaginated
      [⟨"f2", "B", "2024-01-02"⟩, ⟨"f1", "a", "2024-01-01"⟩]
      1 1 "filename" "asc").files = [⟨"f1", "a", "2024-01-01"⟩] := by
  have h := (listFilesPaginated_pagination_contract
    [⟨"f2", "B", "2024-01-02"⟩, ⟨"f1", "a", "2024-01-01"⟩]
    1 1 "filename" "asc" (by decide)).2.2.1 (by decide)
  refine ⟨by decide, ?_⟩
  rw [h]
  decide

/-! ## Claim C6 -/

/-- C6: `delete_file` is idempotent on every store state: the first call
removes exactly the chunks with the given `file_id`, the second call
succeeds with zero deletions and leaves the state unchanged; and among
the store operations only delete-by-filter removes chunks —
`add_documents` only appends. -/
theorem deleteFile_idempotent_contract (fileId : String) (st : List Chunk) :
    (orchestratorDeleteFile fileId st).1 =
      st.filter (fun c => ! (c.fileId == fileId)) ∧
    (orchestratorDeleteFile fileId (orchestratorDeleteFile fileId st).1).1 =
      (orchestratorDeleteFile fileId st).1 ∧
    (orchestratorDeleteFile fileId (orchestratorDeleteFile fileId st).1).2 = 0 ∧
    (∀ (docs : List (String × List ℚ)) (fid fn src : String) (st0 : List Chunk),
      ∃ new, mongoAddDocuments docs fid fn src st0 = st0 ++ new) := by
  have hmatch : ∀ c : Chunk, matchesFilter [("file_id", fileId)] c = (c.fileId == fileId) := by
    intro c
    simp [matchesFilter, Chunk.fieldVal]
  refine ⟨?_, ?_, ?_, ?_⟩
  · show (st.filter (fun c => ! matchesFilter [("file_id", fileId)] c)) = _
    simp only [hmatch]
  · show ((st.filter (fun c => ! matchesFilter [("file_id", fileId)] c)).filter
      (fun c => ! matchesFilter [("file_id", fileId)] c)) = _
    rw [List.filter_filter]
    simp
    rfl
  · show ((st.filter (fun c => ! matchesFilter [("file_id", fileId)] c)).filter
      (fun c => matchesFilter [("file_id", fileId)] c)).length = 0
    rw [List.filter_filter]
    simp
  · intro docs fid fn src st0
    exact ⟨_, rfl⟩

/-! ## Claim C7 -/

/-- C7: whenever the create-session route creates a session, the
session is temporary exactly when the caller is not an authenticated
principal (no valid token with a subject); the TTL is 5 hours (short,
hours) for temporary sessions and 15 days (long, days) for persistent
ones, and `expires_at` is the creation time plus that TTL. -/
theorem routeCreateSession_temporary_contract (auth : JwtOutcome)
    (sessionData : Option SessionCreateData) (anonId : String) (now : Nat)
    (sid : String) :
    ∀ s, routeCreateSession auth sessionData anonId now sid = .ok s →
      s.isTemporary = (! authenticatedPrincipal auth) ∧
      (s.isTemporary = true → s.expiresAt = some (now + tempSessionTTL)) ∧
      (s.isTemporary = false → s.expiresAt = some (now + persistentSessionTTL)) ∧
      s.createdAt = now ∧ s.isActive = true ∧
      tempSessionTTL = 5 * 3600 ∧ persistentSessionTTL = 15 * 86400 := by
  intro s h
  cases auth with
  | noCredentials =>
    cases sessionData with
    | none =>
      injection h with h
      subst h
      refine ⟨rfl, fun _ => rfl, fun habs => ?_, rfl, rfl, rfl, rfl⟩
      exact nomatch habs
    | some d =>
      injection h with h
      subst h
      refine ⟨rfl, fun _ => rfl, fun habs => ?_, rfl, rfl, rfl, rfl⟩
      exact nomatch habs
  | valid sub =>
    cases sub with
    | none => exact nomatch h
    | some u =>
      cases sessionData with
      | none =>
        injection h with h
        subst h
        refine ⟨rfl, fun habs => ?_, fun _ => rfl, rfl, rfl, rfl, rfl⟩
        exact nomatch habs
      | some d =>
        injection h with h
        subst h
        refine ⟨rfl, fun habs => ?_, fun _ => rfl, rfl, rfl, rfl, rfl⟩
        exact nomatch habs
  | expired => exact nomatch h
  | invalid =>
    cases sessionData with
    | none =>
      injection h with h
      subst h
      refine ⟨rfl, fun _ => rfl, fun habs => ?_, rfl, rfl, rfl, rfl⟩
      exact nomatch habs
    | some d =>
      injection h with h
      subst h
      refine ⟨rfl, fun _ => rfl, fun habs => ?_, rfl, rfl, rfl, rfl⟩
      exact nomatch habs
  | otherError e => exact nomatch h

/-- C7 witness: an anonymous request (no credentials) at time 100 yields
a temporary session expiring at `100 + 5 hours = 18100`. -/
theorem routeCreateSession_temporary_contract_witness :
    routeCreateSession .noCredentials none "x" 100 "s1" =
      .ok ⟨"s1", some "temp_user_x", none, 100, 100, 0, 0, true, true, some 18100⟩ ∧
    ((⟨"s1", some "temp_user_x", none, 100, 100, 0, 0, true, true,
        some 18100⟩ : SessionRecord).isTemporary =
      (! authenticatedPrincipal .noCredentials) ∧
     (⟨"s1", some "temp_user_x", none, 100, 100, 0, 0, true, true,
        some 18100⟩ : SessionRecord).expiresAt = some (100 + tempSessionTTL)) := by
  have hok : routeCreateSession .noCredentials none "x" 100 "s1" =
      .ok ⟨"s1", some "temp_user_x", none, 100, 100, 0, 0, true, true, some 18100⟩ := by
    rfl
  have h := routeCreateSession_temporary_contract .noCredentials none "x" 100 "s1"
    ⟨"s1", some "temp_user_x", none, 100, 100, 0, 0, true, true, some 18100⟩ hok
  exact ⟨hok, h.1, h.2.1 rfl⟩

/-! ## Claim C8 -/

/-- C8 counterexample: a persistent session (is_temporary false) created
at time 0 for user u1, queried at time 1382400 (16 days) — a time later
than creation plus the temporary TTL — is NOT in the active listing,
because its own 15-day expiry has passed; the claim asserts it would
still be listed at any such time. -/
theorem getUserSessions_persistent_excluded_late :
    (createSession (some "u1") (some ⟨none, false⟩) 0 "s1").isTemporary = false ∧
    0 + tempSessionTTL < 1382400 ∧
    getUserSessions [createSession (some "u1") (some ⟨none, false⟩) 0 "s1"]
      "u1" 50 0 1382400 = [] := by
  exact ⟨by decide, by decide, by decide⟩

/-- C8 (amended): every session in the active listing belongs to the
user, is active and unexpired; conversely, when the pagination window
covers all matches (offset 0, limit at least the number of matches) a
session is listed iff it satisfies that filter; a temporary session is
excluded at any time later than creation plus its TTL, a persistent
session created at the same moment is still listed at such times as
long as they precede its own 15-day expiry, and closed sessions are
always excluded. -/
theorem getUserSessions_active_listing_contract (sessions : List SessionRecord)
    (uid : String) (limit offset now : Nat) :
    (∀ s, s ∈ getUserSessions sessions uid limit offset now →
      s ∈ sessions ∧ isListedActive uid now s = true) ∧
    (offset = 0 → (sessions.filter (isListedActive uid now)).length ≤ limit →
      ∀ s, s ∈ getUserSessions sessions uid limit offset now ↔
        s ∈ sessions ∧ isListedActive uid now s = true) ∧
    (∀ (userId : Option String) (sd : SessionCreateData) (sid : String) (c : Nat),
      (createSession userId (some sd) c sid).isTemporary = true →
      c + tempSessionTTL < now →
      isListedActive uid now (createSession userId (some sd) c sid) = false) ∧
    (∀ (sd : SessionCreateData) (sid : String) (c : Nat),
      (createSession (some uid) (some sd) c sid).isTemporary = false →
      now < c + persistentSessionTTL →
      isListedActive uid now (createSession (some uid) (some sd) c sid) = true) ∧
    (∀ s : SessionRecord, s.isActive = false → isListedActive uid now s = false) := by
  refine ⟨?_, ?_, ?_, ?_, ?_⟩
  · intro s hs
    have h1 : s ∈ pySortByKey (fun s : SessionRecord => s.updatedAt) true
        (sessions.filter (isListedActive uid now)) :=
      List.mem_of_mem_drop (List.mem_of_mem_take hs)
    have h2 : s ∈ sessions.filter (isListedActive uid now) :=
      (pySortByKey_perm _ _ _).mem_iff.mp h1
    exact List.mem_filter.mp h2
  · intro hoff hlen s
    subst hoff
    have hperm := pySortByKey_perm (fun s : SessionRecord => s.updatedAt) true
      (sessions.filter (isListedActive uid now))
    have hslen : (pySortByKey (fun s : SessionRecord => s.updatedAt) true
        (sessions.filter (isListedActive uid now))).length ≤ limit := by
      rw [hperm.length_eq]
      exact hlen
    show s ∈ ((pySortByKey (fun s : SessionRecord => s.updatedAt) true
        (sessions.filter (isListedActive uid now))).drop 0).take limit ↔ _
    rw [List.drop_zero, List.take_of_length_le hslen, hperm.mem_iff, List.mem_filter]
  · intro userId sd sid c htemp hlate
    have hsd : sd.isTemporary = true := htemp
    simp [isListedActive, createSession, hsd]
    omega
  · intro sd sid c hpers hnow
    have hsd : sd.isTemporary = false := hpers
    simp [isListedActive, createSession, hsd]
    omega
  · intro s hs
    simp [isListedActive, hs]

/-- C8 witness: a temporary session created at time 0 is excluded at
time 20000 (past its 5-hour TTL). -/
theorem getUserSessions_active_listing_contract_witness :
    (createSession (some "u") (some ⟨none, true⟩) 0 "sid").isTemporary = true ∧
    0 + tempSessionTTL < 20000 ∧
    isListedActive "u" 20000 (createSession (some "u") (some ⟨none, true⟩) 0 "sid") =
      false := by
  refine ⟨by decide, by decide, ?_⟩
  exact (getUserSessions_active_listing_contract [] "u" 50 0 20000).2.2.1
    (some "u") ⟨none, true⟩ "sid" 0 (by decide) (by decide)

/-! ## Claim C9 -/

/-- C9: the claim says `add_message` increments `message_count` by one
and adds `tokens_used` to `total_tokens`.  The code instead nests the
`$inc` operators INSIDE the `$set` document, so MongoDB stores the
literal documents `{"$inc": 1}` / `{"$inc": tokens_used}` in those
fields: on a session with `message_count = 0`, after one `add_message`
with `tokens_used = 7` the field holds a document, not the integer 1
(`updated_at` is refreshed, `is_active` is untouched, and exactly one
message record is inserted, as claimed). -/
theorem addMessage_counter_update_bug :
    addMessage
      [("s1", [("message_count", Bson.int 0), ("total_tokens", Bson.int 0),
               ("is_active", Bson.bool true), ("updated_at", Bson.int 50)])]
      [] "s1" "user" "hi" "text" (some 7) none 60 "m1" =
      ([("s1", [("message_count", Bson.doc [("$inc", Bson.int 1)]),
                ("total_tokens", Bson.doc [("$inc", Bson.int 7)]),
                ("is_active", Bson.bool true),
                ("updated_at", Bson.int 60)])],
       [⟨"m1", "s1", "user", "hi", "text", 60, some 7, none⟩]) ∧
    Bson.doc [("$inc", Bson.int 1)] ≠ Bson.int (0 + 1) := by
  constructor
  · rfl
  · intro h
    exact Bson.noConfusion h

/-! ## Claim C10 -/

/-- C10: `ZillizVectorStore.add_documents` raises for every non-empty
document list: either the embedding call itself raises, or the
per-document loop hits the unbound name `ZoneInfo` (never imported in
the module) and raises a `NameError` before any insert, leaving the
collection unchanged — so no document can ever be stored through the
Zilliz backend, the default `VECTOR_STORE_TYPE`.  An empty list returns
without error and without effect. -/
theorem zillizAddDocuments_always_raises (embed : Except PyError (List (List ℚ)))
    (docs : List String) (fileId filename : String) (st : List ZRow) :
    (docs ≠ [] → ∀ embs, embed = .ok embs → embs.length = docs.length →
      zillizAddDocuments embed docs fileId filename st =
        (.error ⟨"NameError", "name ZoneInfo is not defined"⟩, st)) ∧
    (∀ e, embed = .error e → docs ≠ [] →
      zillizAddDocuments embed docs fileId filename st = (.error e, st)) ∧
    (docs = [] → zillizAddDocuments embed docs fileId filename st = (.ok (), st)) ∧
    vectorStoreTypeDefault = "zilliz" := by
  refine ⟨?_, ?_, ?_, rfl⟩
  · intro hne embs hembed hlen
    subst hembed
    cases docs with
    | nil => exact absurd rfl hne
    | cons d ds =>
      cases embs with
      | nil => simp at hlen
      | cons e es => rfl
  · intro e hembed hne
    subst hembed
    cases docs with
    | nil => exact absurd rfl hne
    | cons d ds => rfl
  · intro hnil
    subst hnil
    rfl

/-- C10 witness: one document with one embedding: the call fails with
the `ZoneInfo` NameError and stores nothing. -/
theorem zillizAddDocuments_always_raises_witness :
    (["hello"] : List String) ≠ [] ∧
    zillizAddDocuments (.ok [[(1 : ℚ)]]) ["hello"] "f1" "a.txt" [] =
      (.error ⟨"NameError", "name ZoneInfo is not defined"⟩, []) := by
  refine ⟨by decide, ?_⟩
  exact (zillizAddDocuments_always_raises (.ok [[(1 : ℚ)]]) ["hello"] "f1" "a.txt" []).1
    (by decide) [[(1 : ℚ)]] rfl (by decide)
